import Mathlib

/-!
Verification of the `dataobject` Go package (package `dataobject`): a mutable
string-keyed data container with change tracking, constructors from existing
data / JSON / gob, and an optional per-key transformer hook.

Go maps `map[string]V` are modelled as association lists with replace-on-insert
semantics (a nil map and an empty map behave identically for reads, exactly as
in Go, so both are the empty list). Go strings are Lean `String`s, operated on
through their character lists (source inputs relevant to the claims are ASCII,
where Go's byte-wise operations and the character-wise model coincide).
Fallible Go functions returning `(T, error)` become `Except String T`.
-/

deriving instance DecidableEq for Except

namespace Dataobject

/-- Lookup in the association-list model of a Go map: `m[k]` presence. -/
def lookupKV {α : Type} : List (String × α) → String → Option α
  | [], _ => none
  | (k', v) :: rest, k => if k' = k then some v else lookupKV rest k

/-- Go map read `m[k]` for a `map[string]string`: the zero value `""` when
the key is absent. -/
def mapGet (m : List (String × String)) (k : String) : String :=
  (lookupKV m k).getD ""

/-- Go map write `m[k] = v`: replace the binding if present, append otherwise. -/
def insertKV {α : Type} : List (String × α) → String → α → List (String × α)
  | [], k, v => [(k, v)]
  | (k', v') :: rest, k, v =>
      if k' = k then (k, v) :: rest else (k', v') :: insertKV rest k v

/-- Key-presence test, Go's `_, ok := m[k]`. -/
def hasKeyKV {α : Type} (m : List (String × α)) (k : String) : Bool :=
  (lookupKV m k).isSome

theorem lookupKV_insertKV_self {α : Type} (m : List (String × α)) (k : String) (v : α) :
    lookupKV (insertKV m k v) k = some v := by
  induction m with
  | nil => simp [insertKV, lookupKV]
  | cons hd tl ih =>
      obtain ⟨k', v'⟩ := hd
      by_cases h : k' = k
      · simp [insertKV, lookupKV, h]
      · simp [insertKV, lookupKV, h, ih]

theorem lookupKV_insertKV_ne {α : Type} (m : List (String × α)) (k k' : String) (v : α)
    (h : k ≠ k') : lookupKV (insertKV m k v) k' = lookupKV m k' := by
  induction m with
  | nil => simp [insertKV, lookupKV, h]
  | cons hd tl ih =>
      obtain ⟨k₀, v₀⟩ := hd
      by_cases h₀ : k₀ = k
      · subst h₀
        simp [insertKV, lookupKV, h]
      · simp [insertKV, h₀, lookupKV]
        by_cases h₁ : k₀ = k'
        · simp [h₁]
        · simp [h₁, ih]

/-- `src/mapStringAnyToMapStringString.go`: `TransformerInterface`, a
serialize/deserialize pair, each fallible. -/
structure TransformerInterface where
  serialize : String → Except String String
  deserialize : String → Except String String

/-- `src/DataObject.go`: the `DataObject` struct. The Go zero value has all
three maps nil, i.e. empty lists here. -/
structure DataObject where
  data : List (String × String)
  dataChanged : List (String × String)
  transformers : List (String × TransformerInterface)

/-- The Go composite literal `&DataObject\x7b\x7d`. -/
def DataObject.empty : DataObject := ⟨[], [], []⟩

/-- `Init`: re-creates each map when its length is below 1. In the list model
an empty list is replaced by an empty list, so `Init` is semantically the
identity (proved below), exactly as in Go where a nil map and an empty map
are indistinguishable to readers. -/
def DataObject.Init (d : DataObject) : DataObject :=
  { data := if d.data.length < 1 then [] else d.data
    dataChanged := if d.dataChanged.length < 1 then [] else d.dataChanged
    transformers := if d.transformers.length < 1 then [] else d.transformers }

theorem DataObject.Init_eq (d : DataObject) : d.Init = d := by
  obtain ⟨dt, dc, tr⟩ := d
  simp only [DataObject.Init]
  cases dt <;> cases dc <;> cases tr <;> simp

/-- `GetTransformer`: returns the registered transformer or nil (`none`). -/
def DataObject.GetTransformer (d : DataObject) (key : String) :
    Option TransformerInterface :=
  lookupKV d.transformers key

/-- `SetTransformer`: errors when a transformer is already registered for the
key, registers it otherwise. The pair carries the post-call receiver state. -/
def DataObject.SetTransformer (d : DataObject) (key : String)
    (t : TransformerInterface) : Except String DataObject :=
  if hasKeyKV d.transformers key then
    .error ("transformer for key \"" ++ key ++ "\" already set")
  else
    .ok { d with transformers := insertKV d.transformers key t }

/-- `Set`: runs `Init`, applies the key's transformer (if any) to the value,
and on success writes the (possibly serialized) value into both `data` and
`dataChanged`. A serialize error aborts before either map write. -/
def DataObject.Set (d : DataObject) (key value : String) : Except String DataObject :=
  let d := d.Init
  match d.GetTransformer key with
  | some t =>
      match t.serialize value with
      | .error e => .error e
      | .ok v' =>
          .ok { d with data := insertKV d.data key v'
                       dataChanged := insertKV d.dataChanged key v' }
  | none =>
      .ok { d with data := insertKV d.data key value
                   dataChanged := insertKV d.dataChanged key value }

/-- The receiver's state after a `Set` call (Go mutates through the pointer;
on a serialize error only `Init` has run). -/
def DataObject.SetState (d : DataObject) (key value : String) : DataObject :=
  match d.Set key value with
  | .ok d' => d'
  | .error _ => d.Init

/-- `Get`: reads `data[key]` (zero value `""` when absent) and applies the
key's deserializer if registered; a deserialize error is returned. -/
def DataObject.Get (d : DataObject) (key : String) : Except String String :=
  let d := d.Init
  let value := mapGet d.data key
  match d.GetTransformer key with
  | some t =>
      match t.deserialize value with
      | .error e => .error e
      | .ok v' => .ok v'
  | none => .ok value

/-- `SetData`: `for k, v := range data \x7b do.Set(k, v) \x7d` — calls `Set`
on each entry and discards its error (the receiver is unchanged by a failed
`Set`, so iteration simply continues). Go's map iteration order is arbitrary;
the entry list argument ranges over all orders. -/
def DataObject.SetData (d : DataObject) (m : List (String × String)) : DataObject :=
  m.foldl (fun acc kv => acc.SetState kv.1 kv.2) d

/-- `Hydrate`: `Init` then replace `data` wholesale; `dataChanged` is not
touched. -/
def DataObject.Hydrate (d : DataObject) (m : List (String × String)) : DataObject :=
  { d.Init with data := m }

/-- `MarkAsNotDirty`: empties `dataChanged`. -/
def DataObject.MarkAsNotDirty (d : DataObject) : DataObject :=
  { d with dataChanged := [] }

/-- `IsDirty`: `Init` then `len(dataChanged) > 0`. -/
def DataObject.IsDirty (d : DataObject) : Bool :=
  d.Init.dataChanged.length > 0

/-- `Data`: `Init` then return the current-values map. -/
def DataObject.Data (d : DataObject) : List (String × String) :=
  d.Init.data

/-- `DataChanged`: `Init` then return the changed-values map. -/
def DataObject.DataChanged (d : DataObject) : List (String × String) :=
  d.Init.dataChanged

/-- `ID`: `Get("id")`. -/
def DataObject.ID (d : DataObject) : Except String String :=
  d.Get "id"

/-- `SetID`: `Set("id", id)`. -/
def DataObject.SetID (d : DataObject) (id : String) : Except String DataObject :=
  d.Set "id" id

/-! ### String helpers (`src/functions.go` and the Go standard library calls it makes) -/

/-- The character `\x7b` (opening curly brace). -/
def lbrace : Char := Char.ofNat 123

/-- The character `\x7d` (closing curly brace). -/
def rbrace : Char := Char.ofNat 125

/-- `strings.HasPrefix s p` on character lists. -/
def hasPrefixL : List Char → List Char → Bool
  | _, [] => true
  | [], _ :: _ => false
  | c :: cs, p :: ps => c = p && hasPrefixL cs ps

/-- `strings.HasSuffix s p` on character lists. -/
def hasSuffixL (s p : List Char) : Bool :=
  hasPrefixL s.reverse p.reverse

/-- `strings.Contains s pat` on character lists. -/
def containsSub : List Char → List Char → Bool
  | [], pat => pat.isEmpty
  | c :: cs, pat => hasPrefixL (c :: cs) pat || containsSub cs pat

/-- Whitespace characters of `strings.TrimSpace` (`unicode.IsSpace`),
restricted to the Latin-1 range that the claims exercise. -/
def isSpaceGo (c : Char) : Bool :=
  c = ' ' || c = '\t' || c = '\n' || c = Char.ofNat 11 || c = Char.ofNat 12 ||
    c = '\r' || c = Char.ofNat 133 || c = Char.ofNat 160

/-- `strings.TrimSpace` on character lists. -/
def trimSpace (s : List Char) : List Char :=
  ((s.dropWhile isSpaceGo).reverse.dropWhile isSpaceGo).reverse

/-- `src/constructors.go` uses the constant `propertyId` for the reserved
attribute name. Its defining file is not under `src/`; the spec fixes its
value: the reserved attribute name is `"id"` (the repository tests index
`data[propertyId]` and report it as `data["id"]`). -/
def propertyId : String := "id"

/-- The pattern `"\"" + propertyId + "\""`, i.e. `"id"` surrounded by
double quotes, as a character list. -/
def quotedIdPattern : List Char := '"' :: 'i' :: 'd' :: '"' :: []

/-- `src/functions.go` `isValidDataObjectJSON` (called `isDataObjectJSON` at
its call site in `src/constructors.go`): rejects `""`, `"\x7b\x7d"` and
`"null"` verbatim, then requires a `\x7b` first character and `\x7d` last
character, then requires the quoted substring `"id"` somewhere. -/
def isValidDataObjectJSON (jsonString : String) : Bool :=
  let cs := jsonString.data
  if cs = [] || cs = [lbrace, rbrace] || cs = ['n', 'u', 'l', 'l'] then
    false
  else if !(hasPrefixL cs [lbrace] && hasSuffixL cs [rbrace]) then
    false
  else
    containsSub cs quotedIdPattern

/-! ### Decimal rendering (`strconv` calls in `src/functions.go`'s `toString`) -/

/-- The decimal digit character for `n < 10`. -/
def digitChar (n : Nat) : Char := Char.ofNat (48 + n)

/-- Decimal digits of `n`, most significant first; fuel-structured so the
kernel can evaluate it. Produces `[]` when `n = 0`. -/
def natDigitsAux : Nat → Nat → List Char
  | 0, _ => []
  | _ + 1, 0 => []
  | fuel + 1, n => natDigitsAux fuel (n / 10) ++ [digitChar (n % 10)]

/-- `strconv`-style decimal rendering of a natural number. -/
def natDecimal (n : Nat) : String :=
  if n = 0 then "0" else String.mk (natDigitsAux n n)

/-- `strconv.Itoa` / `strconv.FormatInt base 10`. -/
def intDecimal (n : Int) : String :=
  (if n < 0 then "-" else "") ++ natDecimal n.natAbs

/-! ### Float formatting

Go float values are modelled by their exact rational values (every finite
IEEE-754 value is a dyadic rational, and `strconv`'s formatting performs
correct rounding of that exact value). -/

/-- Floor of a rational, computably. -/
def ratFloor (q : ℚ) : ℤ := Int.fdiv q.num q.den

/-- Round to the nearest integer, ties to even — the rounding
`strconv.FormatFloat` applies to the exact value at a fixed precision. -/
def roundHalfEven (q : ℚ) : ℤ :=
  let f := ratFloor q
  let frac := q - f
  if frac < mkRat 1 2 then f
  else if mkRat 1 2 < frac then f + 1
  else if f % 2 = 0 then f else f + 1

/-- Exactly four decimal digit characters, zero padded, of `n % 10000`. -/
def pad4 (n : Nat) : List Char :=
  [digitChar (n / 1000 % 10), digitChar (n / 100 % 10),
   digitChar (n / 10 % 10), digitChar (n % 10)]

/-- `strconv.FormatFloat(v, 'f', 4, 64)`: fixed-point, exactly four digits
after the decimal point, never scientific notation. -/
def formatFloat4 (q : ℚ) : String :=
  let n := roundHalfEven (q * 10000)
  let a := n.natAbs
  (if q < 0 then "-" else "") ++ natDecimal (a / 10000) ++ "." ++ String.mk (pad4 a)

/-- Decimal expansion digits of a fraction `0 ≤ q < 1`, stopping at zero;
fuel-structured (every dyadic rational terminates well inside the fuel). -/
def fracDigits : Nat → ℚ → List Char
  | 0, _ => []
  | fuel + 1, q =>
      if q ≤ 0 then []
      else
        let q10 := q * 10
        let d := ratFloor q10
        digitChar d.toNat :: fracDigits fuel (q10 - d)

/-- Models the `%v` formatting `fmt.Sprint` gives a Go float (shortest
decimal that round-trips): exact for values whose shortest form coincides
with their exact terminating expansion, such as small dyadic rationals —
`2.0` prints `"2"`, `0.5` prints `"0.5"`. -/
def fmtFloatShortest (q : ℚ) : String :=
  let a := |q|
  let ip := ratFloor a
  let ds := fracDigits 1200 (a - ip)
  (if q < 0 then "-" else "") ++ natDecimal ip.toNat ++
    (if ds.isEmpty then "" else "." ++ String.mk ds)

/-- Checks the fixed-point shape the spec describes: the string ends in a
decimal point followed by exactly four digits, and everything before the
point is digits with an optional leading minus sign (in particular there is
no exponent marker anywhere). -/
def fixed4Shape (s : String) : Bool :=
  match s.data.reverse with
  | d1 :: d2 :: d3 :: d4 :: c :: rest =>
      d1.isDigit && d2.isDigit && d3.isDigit && d4.isDigit && c = '.' &&
        (rest.all fun x => x.isDigit || x = '-') &&
        (rest.any fun x => x.isDigit)
  | _ => false

/-! ### `toString` (`src/functions.go`) -/

/-- The dynamic (`any`) values `toString` can receive. Signed integer types
of every width render identically through `strconv.FormatInt`, so they share
one constructor, and likewise the unsigned widths; `float32` has its own
constructor because the source switch has no case for it. `[]byte` is
modelled by its text content (`btos` reinterprets the bytes as a string). -/
inductive GoValue where
  | strV (s : String)
  | nilV
  | bytesV (s : String)
  | intV (n : ℤ)
  | uintV (n : ℕ)
  | float64V (q : ℚ)
  | float32V (q : ℚ)
  | boolV (b : Bool)
  | arrV (xs : List GoValue)
  | mapV (m : List (String × GoValue))

/-- Interleaves `" "` between rendered elements, as `fmt` does inside a
slice or map rendering. -/
def joinSpaced : List String → String
  | [] => ""
  | [s] => s
  | s :: rest => s ++ " " ++ joinSpaced rest

mutual

/-- Models `fmt.Sprint(v)` (`%v`), the `default` branch of `toString`.
Map entries render in the stored order (Go sorts map keys; the callers in
this development never render a map through this branch). -/
def fmtSprint : GoValue → String
  | .strV s => s
  | .nilV => "<nil>"
  | .bytesV s => "[" ++ joinSpaced (s.data.map fun c => natDecimal c.toNat) ++ "]"
  | .intV n => intDecimal n
  | .uintV n => natDecimal n
  | .float64V q => fmtFloatShortest q
  | .float32V q => fmtFloatShortest q
  | .boolV b => if b then "true" else "false"
  | .arrV xs => "[" ++ joinSpaced (fmtSprintList xs) ++ "]"
  | .mapV m => "map[" ++ joinSpaced (fmtSprintMap m) ++ "]"

def fmtSprintList : List GoValue → List String
  | [] => []
  | x :: xs => fmtSprint x :: fmtSprintList xs

def fmtSprintMap : List (String × GoValue) → List String
  | [] => []
  | (k, v) :: rest => (k ++ ":" ++ fmtSprint v) :: fmtSprintMap rest

end

/-- `src/functions.go` `toString`: the type switch. Cases in source order;
every case absent from the switch (`bool`, `float32`, slices, maps, …)
falls through to `fmt.Sprint`. -/
def toString : GoValue → String
  | .strV v => v
  | .nilV => ""
  | .bytesV b => b
  | .intV n => intDecimal n
  | .uintV n => natDecimal n
  | .float64V q => formatFloat4 q
  | v => fmtSprint v

/-- `src/functions.go` `mapStringAnyToMapStringString`: converts every value
with `toString` into a fresh string map (never nil). Building with
`insertKV` reproduces Go's last-wins map-write semantics. -/
def mapStringAnyToMapStringString (m : List (String × GoValue)) :
    List (String × String) :=
  m.foldl (fun acc kv => insertKV acc kv.1 (toString kv.2)) []

/-! ### JSON decoding (`encoding/json.Unmarshal` into `any`)

A recursive-descent parser producing the exact dynamic shapes Go's decoder
yields for `any`: strings, numbers (as floats — modelled by their exact
rational value), booleans, null, `[]any`, and `map[string]any` with
last-wins duplicate keys. Fuel-structured so the kernel can evaluate it. -/

/-- JSON insignificant whitespace. -/
def skipWs : List Char → List Char
  | c :: cs =>
      if c = ' ' || c = '\t' || c = '\n' || c = '\r' then skipWs cs else c :: cs
  | [] => []

/-- Body of a JSON string after the opening quote; returns the decoded
content and the rest after the closing quote. Handles the single-character
escapes (`\uXXXX` escapes do not occur in the claims' inputs and are
reported as a parse failure). -/
def parseStringBody : Nat → List Char → Option (List Char × List Char)
  | 0, _ => none
  | _ + 1, [] => none
  | fuel + 1, c :: cs =>
      if c = '"' then some ([], cs)
      else if c = '\\' then
        match cs with
        | e :: cs' =>
            let dec : Option Char :=
              if e = '"' then some '"'
              else if e = '\\' then some '\\'
              else if e = '/' then some '/'
              else if e = 'n' then some '\n'
              else if e = 't' then some '\t'
              else if e = 'r' then some '\r'
              else if e = 'b' then some (Char.ofNat 8)
              else if e = 'f' then some (Char.ofNat 12)
              else none
            match dec with
            | some d =>
                match parseStringBody fuel cs' with
                | some (content, rest) => some (d :: content, rest)
                | none => none
            | none => none
        | [] => none
      else
        match parseStringBody fuel cs with
        | some (content, rest) => some (c :: content, rest)
        | none => none

/-- Leading decimal digits and the rest. -/
def takeDigits : List Char → List Char × List Char
  | [] => ([], [])
  | c :: cs =>
      if c.isDigit then
        let (d, r) := takeDigits cs
        (c :: d, r)
      else ([], c :: cs)

/-- Value of a digit string. -/
def digitsVal (ds : List Char) : Nat :=
  ds.foldl (fun acc c => acc * 10 + (c.toNat - 48)) 0

/-- A JSON number: optional minus, integer digits, optional fraction,
optional exponent; its exact rational value. -/
def parseNumber (cs : List Char) : Option (ℚ × List Char) :=
  let (neg, cs₁) := match cs with
    | '-' :: rest => (true, rest)
    | _ => (false, cs)
  let (ip, cs₂) := takeDigits cs₁
  if ip.isEmpty then none
  else
    let (fp, cs₃) := match cs₂ with
      | '.' :: rest =>
          let (d, r) := takeDigits rest
          (d, r)
      | _ => ([], cs₂)
    let expPart : Option (Int × List Char) := match cs₃ with
      | e :: rest =>
          if e = 'e' || e = 'E' then
            let (esign, rest₁) := match rest with
              | '-' :: r => ((-1 : Int), r)
              | '+' :: r => ((1 : Int), r)
              | _ => ((1 : Int), rest)
            let (ed, rest₂) := takeDigits rest₁
            if ed.isEmpty then none else some (esign * digitsVal ed, rest₂)
          else some (0, cs₃)
      | [] => some (0, cs₃)
    match expPart with
    | none => none
    | some (ex, rest) =>
        let mantissa : Int := digitsVal (ip ++ fp)
        let mantissa := if neg then -mantissa else mantissa
        let scale : Int := ex - fp.length
        let q : ℚ :=
          if 0 ≤ scale then mkRat (mantissa * ((10 : Int) ^ scale.toNat)) 1
          else mkRat mantissa ((10 : Nat) ^ (-scale).toNat)
        some (q, rest)

mutual

/-- A JSON value; fuel decreases on every recursive call. -/
def parseValue : Nat → List Char → Option (GoValue × List Char)
  | 0, _ => none
  | fuel + 1, cs =>
      match skipWs cs with
      | [] => none
      | c :: rest =>
          if c = '"' then
            match parseStringBody fuel rest with
            | some (b, r) => some (.strV (String.mk b), r)
            | none => none
          else if c = lbrace then
            match parseObjectMembers fuel rest with
            | some (m, r) => some (.mapV m, r)
            | none => none
          else if c = '[' then
            match parseArrayElems fuel rest with
            | some (xs, r) => some (.arrV xs, r)
            | none => none
          else if c = 't' then
            match rest with
            | 'r' :: 'u' :: 'e' :: r => some (.boolV true, r)
            | _ => none
          else if c = 'f' then
            match rest with
            | 'a' :: 'l' :: 's' :: 'e' :: r => some (.boolV false, r)
            | _ => none
          else if c = 'n' then
            match rest with
            | 'u' :: 'l' :: 'l' :: r => some (.nilV, r)
            | _ => none
          else
            match parseNumber (c :: rest) with
            | some (q, r) => some (.float64V q, r)
            | none => none

/-- Members of an object after the opening brace, building the
`map[string]any` with last-wins writes. -/
def parseObjectMembers : Nat → List Char →
    Option (List (String × GoValue) × List Char)
  | 0, _ => none
  | fuel + 1, cs =>
      match skipWs cs with
      | [] => none
      | c :: rest =>
          if c = rbrace then some ([], rest)
          else if c = '"' then
            match parseStringBody fuel rest with
            | some (kb, r₁) =>
                match skipWs r₁ with
                | ':' :: r₂ =>
                    match parseValue fuel r₂ with
                    | some (v, r₃) =>
                        match skipWs r₃ with
                        | ',' :: r₄ =>
                            match parseObjectMembers fuel r₄ with
                            | some (ms, r) => some ((String.mk kb, v) :: ms, r)
                            | none => none
                        | c₂ :: r₄ =>
                            if c₂ = rbrace then some ([(String.mk kb, v)], r₄)
                            else none
                        | [] => none
                    | none => none
                | _ => none
            | none => none
          else none

/-- Elements of an array after the opening bracket. -/
def parseArrayElems : Nat → List Char → Option (List GoValue × List Char)
  | 0, _ => none
  | fuel + 1, cs =>
      match skipWs cs with
      | [] => none
      | c :: rest =>
          if c = ']' then some ([], rest)
          else
            match parseValue fuel (c :: rest) with
            | some (v, r₁) =>
                match skipWs r₁ with
                | ',' :: r₂ =>
                    match parseArrayElems fuel r₂ with
                    | some (xs, r) => some (v :: xs, r)
                    | none => none
                | c₂ :: r₂ =>
                    if c₂ = ']' then some ([v], r₂) else none
                | [] => none
            | none => none

end

/-- `json.Unmarshal(data, &e)` with `e : any`: one value, then only
whitespace may remain. -/
def jsonUnmarshal (s : String) : Except String GoValue :=
  match parseValue (s.length + 2) s.data with
  | some (v, rest) =>
      if skipWs rest = [] then .ok v
      else .error "invalid character after top-level value"
  | none => .error "unexpected end of JSON input"

/-! ### JSON encoding (`json.Marshal` of a `map[string]string`) -/

/-- `encoding/json` string escaping (with its default HTML escaping of
`<`, `>`, `&`). -/
def jsonEscapeChar (c : Char) : List Char :=
  if c = '"' then ['\\', '"']
  else if c = '\\' then ['\\', '\\']
  else if c = '\n' then ['\\', 'n']
  else if c = '\r' then ['\\', 'r']
  else if c = '\t' then ['\\', 't']
  else if c = '<' then '\\' :: 'u' :: '0' :: '0' :: '3' :: 'c' :: []
  else if c = '>' then '\\' :: 'u' :: '0' :: '0' :: '3' :: 'e' :: []
  else if c = '&' then '\\' :: 'u' :: '0' :: '0' :: '2' :: '6' :: []
  else if c.toNat < 32 then
    '\\' :: 'u' :: '0' :: '0' :: digitChar (c.toNat / 16) :: digitChar (c.toNat % 16) :: []
  else [c]

/-- A JSON string literal for `s`. -/
def jsonQuote (s : String) : String :=
  "\"" ++ String.mk (s.data.flatMap jsonEscapeChar) ++ "\""

/-- Byte-wise (here character-wise, identical on ASCII) string ordering, as
`sort.Strings` compares Go map keys. -/
def charListLtB : List Char → List Char → Bool
  | [], [] => false
  | [], _ :: _ => true
  | _ :: _, [] => false
  | a :: as, b :: bs =>
      if a.toNat < b.toNat then true
      else if b.toNat < a.toNat then false
      else charListLtB as bs

/-- Insertion into a key-sorted entry list (`json.Marshal` sorts map keys). -/
def insertSortedKV (kv : String × String) :
    List (String × String) → List (String × String)
  | [] => [kv]
  | x :: xs =>
      if charListLtB kv.1.data x.1.data then kv :: x :: xs
      else x :: insertSortedKV kv xs

/-- Entries sorted by key. -/
def sortByKey (m : List (String × String)) : List (String × String) :=
  m.foldr insertSortedKV []

/-- Comma-joined rendering of already-sorted members. -/
def joinComma : List String → String
  | [] => ""
  | [s] => s
  | s :: rest => s ++ "," ++ joinComma rest

/-- `json.Marshal` of a `map[string]string`: a flat object, keys sorted. -/
def marshalMapStringString (m : List (String × String)) : String :=
  String.singleton lbrace ++
    joinComma ((sortByKey m).map fun kv => jsonQuote kv.1 ++ ":" ++ jsonQuote kv.2) ++
    String.singleton rbrace

/-- `src/DataObject.go` `ToJSON`: marshals `data`. Marshalling a
string-to-string map never fails in Go, so the error branch is dead. -/
def DataObject.ToJSON (d : DataObject) : Except String String :=
  .ok (marshalMapStringString d.data)

/-! ### Constructors (`src/constructors.go`) -/

/-- `New()`: a fresh object whose id is set to the generated unique id.
`uid.HumanUid()` is an opaque external generator, so the generated id is a
parameter. The error of `SetID` is discarded, as in the source. -/
def New (uid : String) : DataObject :=
  let o := DataObject.empty
  match o.SetID uid with
  | .ok o' => o'
  | .error _ => o

/-- `NewFromData(data)`: hydrate a fresh object. -/
def NewFromData (data : List (String × String)) : DataObject :=
  DataObject.empty.Hydrate data

/-- `NewFromJSON(jsonString)`: validate, decode, convert to a string map,
require a non-empty id, then `NewFromData`. The `data == nil` test of the
source is dead (the converter always returns a non-nil map) and the
`e.(map[string]any)` assertion can only panic when the top-level value is
not an object, which the validated first character `\x7b` rules out; that
dead branch is modelled as an error. -/
def NewFromJSON (jsonString : String) : Except String DataObject :=
  if !isValidDataObjectJSON jsonString then
    .error "invalid json: must be a valid dataobject json object"
  else
    match jsonUnmarshal jsonString with
    | .error e => .error e
    | .ok v =>
        match v with
        | .mapV o =>
            let data := mapStringAnyToMapStringString o
            if mapGet data propertyId = "" then
              .error "invalid json: missing id"
            else
              .ok (NewFromData data)
        | _ => .error "interface conversion: interface is not map[string]any"

/-- `NewFromGob(gobData)`: gob is an opaque binary codec for a
`map[string]string` (spec §6), so the constructor is modelled from its
decode result onward: `none` is a decoder error; a decoded map must carry a
non-empty id. -/
def NewFromGob (decoded : Option (List (String × String))) :
    Except String DataObject :=
  match decoded with
  | none => .error "gob: decode error"
  | some data =>
      if mapGet data propertyId = "" then
        .error "invalid gob data: missing id"
      else
        .ok (NewFromData data)

/-! ### Call sequences on a container -/

/-- The calls a caller can make on a container after construction (the
claims' alphabet). `Get`, `Data` and `DataChanged` are reads but still run
`Init` on the receiver, which `applyOp` reflects. -/
inductive Op where
  | set (k v : String)
  | setData (m : List (String × String))
  | hydrate (m : List (String × String))
  | markAsNotDirty
  | get (k : String)
  | data
  | dataChanged
deriving DecidableEq

/-- Whether an operation is a `Hydrate` call. -/
def Op.isHydrate : Op → Bool
  | .hydrate _ => true
  | _ => false

/-- The receiver's state after one call. -/
def applyOp (d : DataObject) : Op → DataObject
  | .set k v => d.SetState k v
  | .setData m => d.SetData m
  | .hydrate m => d.Hydrate m
  | .markAsNotDirty => d.MarkAsNotDirty
  | .get _ => d.Init
  | .data => d.Init
  | .dataChanged => d.Init

/-- The receiver's state after a sequence of calls. -/
def run (d : DataObject) (ops : List Op) : DataObject :=
  ops.foldl applyOp d

/-- The invariant of claim C1: every key of `dataChanged` is present in
`data` with the same value. -/
def subsetInv (d : DataObject) : Prop :=
  ∀ k v, lookupKV d.dataChanged k = some v → lookupKV d.data k = some v

/-- Decidable form of `subsetInv`. -/
def subsetInvB (d : DataObject) : Bool :=
  d.dataChanged.all fun kv => lookupKV d.data kv.1 = some kv.2

/-- The containers each constructor can return (for `New` the generated id
ranges over all strings; for the fallible constructors only successful
returns count). -/
inductive InitialState : DataObject → Prop where
  | new (uid : String) : InitialState (New uid)
  | fromData (m : List (String × String)) : InitialState (NewFromData m)
  | fromJSON (s : String) (d : DataObject) :
      NewFromJSON s = .ok d → InitialState d
  | fromGob (g : Option (List (String × String))) (d : DataObject) :
      NewFromGob g = .ok d → InitialState d

/-! ### Supporting lemmas -/

theorem DataObject.Set_no_transformer (d : DataObject) (k v : String)
    (h : d.GetTransformer k = none) :
    d.Set k v = .ok { d with data := insertKV d.data k v,
                             dataChanged := insertKV d.dataChanged k v } := by
  simp only [DataObject.Set, DataObject.Init_eq, h]

theorem DataObject.Set_transformer_error (d : DataObject) (k v e : String)
    (t : TransformerInterface) (ht : d.GetTransformer k = some t)
    (hs : t.serialize v = .error e) : d.Set k v = .error e := by
  simp only [DataObject.Set, DataObject.Init_eq, ht, hs]

theorem DataObject.Set_transformer_ok (d : DataObject) (k v w : String)
    (t : TransformerInterface) (ht : d.GetTransformer k = some t)
    (hs : t.serialize v = .ok w) :
    d.Set k v = .ok { d with data := insertKV d.data k w,
                             dataChanged := insertKV d.dataChanged k w } := by
  simp only [DataObject.Set, DataObject.Init_eq, ht, hs]

theorem DataObject.SetState_of_error (d : DataObject) (k v e : String)
    (h : d.Set k v = .error e) : d.SetState k v = d := by
  simp only [DataObject.SetState, h, DataObject.Init_eq]

theorem DataObject.SetState_of_ok (d d' : DataObject) (k v : String)
    (h : d.Set k v = .ok d') : d.SetState k v = d' := by
  simp only [DataObject.SetState, h]

theorem New_eq (uid : String) :
    New uid = ⟨[("id", uid)], [("id", uid)], []⟩ := rfl

theorem NewFromData_eq (m : List (String × String)) :
    NewFromData m = ⟨m, [], []⟩ := rfl

theorem NewFromJSON_ok (s : String) (d : DataObject)
    (h : NewFromJSON s = .ok d) :
    ∃ data, d = NewFromData data ∧ mapGet data propertyId ≠ "" := by
  unfold NewFromJSON at h
  split at h
  · exact absurd h (by simp)
  · split at h
    · exact absurd h (by simp)
    · split at h
      · rename_i o heq
        dsimp only at h
        split at h
        · exact absurd h (by simp)
        · rename_i hne
          refine ⟨mapStringAnyToMapStringString o, ?_, hne⟩
          simp only [Except.ok.injEq] at h
          exact h.symm
      · exact absurd h (by simp)

theorem NewFromGob_ok (g : Option (List (String × String))) (d : DataObject)
    (h : NewFromGob g = .ok d) :
    ∃ data, d = NewFromData data ∧ mapGet data propertyId ≠ "" := by
  unfold NewFromGob at h
  split at h
  · exact absurd h (by simp)
  · rename_i data
    split at h
    · exact absurd h (by simp)
    · rename_i hne
      exact ⟨data, by simp only [Except.ok.injEq] at h; exact h.symm, hne⟩

/-- C3: with no transformer registered for `k`, a successful `Set(k, v)`
makes `Get(k)` return `v` without error, and puts `k ↦ v` into both `Data()`
and `DataChanged()`. -/
theorem C3_set_then_get (d : DataObject) (k v : String)
    (h : d.GetTransformer k = none) :
    ∃ d', d.Set k v = .ok d' ∧
      d'.Get k = .ok v ∧
      hasKeyKV d'.Data k = true ∧ mapGet d'.Data k = v ∧
      hasKeyKV d'.DataChanged k = true ∧ mapGet d'.DataChanged k = v := by
  refine ⟨_, d.Set_no_transformer k v h, ?_, ?_, ?_, ?_, ?_⟩
  · simp only [DataObject.Get, DataObject.Init_eq, DataObject.GetTransformer] at h ⊢
    simp [h, mapGet, lookupKV_insertKV_self]
  · simp [DataObject.Data, DataObject.Init_eq, hasKeyKV, lookupKV_insertKV_self]
  · simp [DataObject.Data, DataObject.Init_eq, mapGet, lookupKV_insertKV_self]
  · simp [DataObject.DataChanged, DataObject.Init_eq, hasKeyKV, lookupKV_insertKV_self]
  · simp [DataObject.DataChanged, DataObject.Init_eq, mapGet, lookupKV_insertKV_self]

/-- Witness for C3 at a concrete container, key and value. -/
theorem C3_set_then_get_witness :
    (New "uid1").GetTransformer "x" = none ∧
    (∃ d', (New "uid1").Set "x" "1" = .ok d' ∧
      d'.Get "x" = .ok "1" ∧
      hasKeyKV d'.Data "x" = true ∧ mapGet d'.Data "x" = "1" ∧
      hasKeyKV d'.DataChanged "x" = true ∧ mapGet d'.DataChanged "x" = "1") :=
  ⟨rfl, C3_set_then_get (New "uid1") "x" "1" rfl⟩

/-- C7: when the registered transformer's `Serialize` fails, `Set` returns
that error and both maps are exactly what they were before the call. -/
theorem C7_failed_set_leaves_store (d : DataObject) (k v e : String)
    (t : TransformerInterface) (ht : d.GetTransformer k = some t)
    (hs : t.serialize v = .error e) :
    d.Set k v = .error e ∧
    (d.SetState k v).data = d.data ∧
    (d.SetState k v).dataChanged = d.dataChanged := by
  have herr := d.Set_transformer_error k v e t ht hs
  rw [d.SetState_of_error k v e herr]
  exact ⟨herr, rfl, rfl⟩

/-- A transformer whose `Serialize` always fails, for the witnesses. -/
def failingTransformer : TransformerInterface :=
  ⟨fun _ => .error "boom", fun x => .ok x⟩

/-- A container with `failingTransformer` registered for key `"k"`. -/
def failingContainer : DataObject :=
  ⟨[("a", "1")], [], [("k", failingTransformer)]⟩

/-- Witness for C7 at a concrete container and failing transformer. -/
theorem C7_failed_set_leaves_store_witness :
    failingContainer.GetTransformer "k" = some failingTransformer ∧
    failingTransformer.serialize "v" = .error "boom" ∧
    failingContainer.Set "k" "v" = .error "boom" ∧
    (failingContainer.SetState "k" "v").data = failingContainer.data ∧
    (failingContainer.SetState "k" "v").dataChanged = failingContainer.dataChanged :=
  ⟨rfl, rfl,
    (C7_failed_set_leaves_store failingContainer "k" "v" "boom"
      failingTransformer rfl rfl).1,
    (C7_failed_set_leaves_store failingContainer "k" "v" "boom"
      failingTransformer rfl rfl).2.1,
    (C7_failed_set_leaves_store failingContainer "k" "v" "boom"
      failingTransformer rfl rfl).2.2⟩

/-- C8 counterexample: `SetData` does not surface the inner `Set` error.
The inner `Set` fails with `"boom"`, yet `SetData` (whose result type has no
error component) returns the unchanged container and the failing key is
silently absent. -/
theorem C8_counterexample :
    failingContainer.Set "k" "v" = .error "boom" ∧
    failingContainer.SetData [("k", "v")] = failingContainer ∧
    hasKeyKV (failingContainer.SetData [("k", "v")]).data "k" = false :=
  ⟨rfl, rfl, rfl⟩

/-- C8 (amended): `Set` and `Get` return their errors to the immediate
caller, but `SetData` discards the error of each inner `Set`: an entry whose
transformer `Serialize` fails is skipped — the store is unmodified for that
key and the remaining entries are still processed — and `SetData` returns
normally, having no error result. -/
theorem C8_setdata_discards_error (d : DataObject) (k v e : String)
    (t : TransformerInterface) (m : List (String × String))
    (ht : d.GetTransformer k = some t) (hs : t.serialize v = .error e) :
    d.Set k v = .error e ∧
    d.SetData ((k, v) :: m) = d.SetData m := by
  have herr := d.Set_transformer_error k v e t ht hs
  refine ⟨herr, ?_⟩
  simp only [DataObject.SetData, List.foldl_cons, d.SetState_of_error k v e herr]

/-- Witness for C8's amended statement at a concrete container. -/
theorem C8_setdata_discards_error_witness :
    failingContainer.GetTransformer "k" = some failingTransformer ∧
    failingTransformer.serialize "v" = .error "boom" ∧
    failingContainer.Set "k" "v" = .error "boom" ∧
    failingContainer.SetData [("k", "v"), ("x", "2")] =
      failingContainer.SetData [("x", "2")] :=
  ⟨rfl, rfl,
    (C8_setdata_discards_error failingContainer "k" "v" "boom"
      failingTransformer [("x", "2")] rfl rfl).1,
    (C8_setdata_discards_error failingContainer "k" "v" "boom"
      failingTransformer [("x", "2")] rfl rfl).2⟩

/-- C4: `New` yields a dirty container with `"id"` among the changed values;
`NewFromData` yields a clean container for every input mapping, and so do
successful `NewFromJSON` and `NewFromGob`. -/
theorem C4_constructor_dirtiness :
    (∀ uid, (New uid).IsDirty = true ∧
      hasKeyKV ((New uid).DataChanged) "id" = true) ∧
    (∀ m, (NewFromData m).IsDirty = false ∧ (NewFromData m).DataChanged = []) ∧
    (∀ s d, NewFromJSON s = .ok d → d.IsDirty = false) ∧
    (∀ g d, NewFromGob g = .ok d → d.IsDirty = false) := by
  refine ⟨fun uid => ⟨?_, ?_⟩, fun m => ⟨?_, ?_⟩, fun s d h => ?_, fun g d h => ?_⟩
  · simp [New_eq, DataObject.IsDirty, DataObject.Init_eq]
  · simp [New_eq, DataObject.DataChanged, DataObject.Init_eq, hasKeyKV, lookupKV]
  · simp [NewFromData_eq, DataObject.IsDirty, DataObject.Init_eq]
  · simp [NewFromData_eq, DataObject.DataChanged, DataObject.Init_eq]
  · obtain ⟨data, rfl, -⟩ := NewFromJSON_ok s d h
    simp [NewFromData_eq, DataObject.IsDirty, DataObject.Init_eq]
  · obtain ⟨data, rfl, -⟩ := NewFromGob_ok g d h
    simp [NewFromData_eq, DataObject.IsDirty, DataObject.Init_eq]

/-- Witness for C4 at concrete constructor inputs. -/
theorem C4_constructor_dirtiness_witness :
    NewFromJSON "\x7b\"id\":\"123\"\x7d" = .ok (NewFromData [("id", "123")]) ∧
    (NewFromData [("id", "123")]).IsDirty = false ∧
    NewFromGob (some [("id", "g")]) = .ok (NewFromData [("id", "g")]) ∧
    (NewFromData [("id", "g")]).IsDirty = false :=
  ⟨rfl,
    C4_constructor_dirtiness.2.2.1 "\x7b\"id\":\"123\"\x7d"
      (NewFromData [("id", "123")]) rfl,
    rfl,
    C4_constructor_dirtiness.2.2.2 (some [("id", "g")])
      (NewFromData [("id", "g")]) rfl⟩

theorem hasKeyKV_of_mapGet_ne (m : List (String × String)) (k : String)
    (h : mapGet m k ≠ "") : hasKeyKV m k = true := by
  unfold mapGet at h
  unfold hasKeyKV
  cases hl : lookupKV m k with
  | none => rw [hl] at h; simp at h
  | some w => rfl

/-- C2 counterexample: `NewFromData` applied to the empty mapping returns a
container (there is no error path), and its data has no `"id"` key. -/
theorem C2_counterexample :
    hasKeyKV ((NewFromData []).Data) "id" = false := by decide

/-- C2 (amended): after `New` the `"id"` attribute is present in the data
map; after any successful `NewFromJSON` or `NewFromGob` it is present with a
non-empty value; after `NewFromData m` it is present exactly when the input
mapping `m` contains it — `NewFromData` itself adds no id. -/
theorem C2_amended :
    (∀ uid, hasKeyKV ((New uid).Data) "id" = true) ∧
    (∀ s d, NewFromJSON s = .ok d →
        hasKeyKV d.Data "id" = true ∧ mapGet d.Data "id" ≠ "") ∧
    (∀ g d, NewFromGob g = .ok d →
        hasKeyKV d.Data "id" = true ∧ mapGet d.Data "id" ≠ "") ∧
    (∀ m, hasKeyKV ((NewFromData m).Data) "id" = hasKeyKV m "id") := by
  refine ⟨fun uid => ?_, fun s d h => ?_, fun g d h => ?_, fun m => ?_⟩
  · simp [New_eq, DataObject.Data, DataObject.Init_eq, hasKeyKV, lookupKV]
  · obtain ⟨data, rfl, hne⟩ := NewFromJSON_ok s d h
    have hD : (NewFromData data).Data = data := by
      simp [NewFromData_eq, DataObject.Data, DataObject.Init_eq]
    rw [hD]
    exact ⟨hasKeyKV_of_mapGet_ne data "id" hne, hne⟩
  · obtain ⟨data, rfl, hne⟩ := NewFromGob_ok g d h
    have hD : (NewFromData data).Data = data := by
      simp [NewFromData_eq, DataObject.Data, DataObject.Init_eq]
    rw [hD]
    exact ⟨hasKeyKV_of_mapGet_ne data "id" hne, hne⟩
  · simp [NewFromData_eq, DataObject.Data, DataObject.Init_eq]

/-- Witness for C2's amended statement at concrete constructor inputs. -/
theorem C2_amended_witness :
    NewFromJSON "\x7b\"id\":\"7\"\x7d" = .ok (NewFromData [("id", "7")]) ∧
    hasKeyKV (NewFromData [("id", "7")]).Data "id" = true ∧
    mapGet (NewFromData [("id", "7")]).Data "id" ≠ "" :=
  ⟨rfl,
    (C2_amended.2.1 "\x7b\"id\":\"7\"\x7d" (NewFromData [("id", "7")]) rfl).1,
    (C2_amended.2.1 "\x7b\"id\":\"7\"\x7d" (NewFromData [("id", "7")]) rfl).2⟩

/-! ### The changed-subset invariant (claim C1) -/

theorem subsetInv_insert (d : DataObject) (k w : String) (h : subsetInv d) :
    subsetInv { d with data := insertKV d.data k w,
                       dataChanged := insertKV d.dataChanged k w } := by
  intro k' v' hk'
  simp only at hk' ⊢
  by_cases hkk : k = k'
  · subst hkk
    rw [lookupKV_insertKV_self] at hk' ⊢
    exact hk'
  · rw [lookupKV_insertKV_ne _ _ _ _ hkk] at hk' ⊢
    exact h k' v' hk'

theorem SetState_subsetInv (d : DataObject) (k v : String) (h : subsetInv d) :
    subsetInv (d.SetState k v) := by
  cases ht : d.GetTransformer k with
  | none =>
      rw [d.SetState_of_ok _ k v (d.Set_no_transformer k v ht)]
      exact subsetInv_insert d k v h
  | some t =>
      cases hs : t.serialize v with
      | error e =>
          rw [d.SetState_of_error k v e (d.Set_transformer_error k v e t ht hs)]
          exact h
      | ok w =>
          rw [d.SetState_of_ok _ k v (d.Set_transformer_ok k v w t ht hs)]
          exact subsetInv_insert d k w h

theorem SetData_subsetInv (d : DataObject) (m : List (String × String))
    (h : subsetInv d) : subsetInv (d.SetData m) := by
  induction m generalizing d with
  | nil => simpa [DataObject.SetData] using h
  | cons kv rest ih =>
      have h1 := SetState_subsetInv d kv.1 kv.2 h
      have : d.SetData (kv :: rest) = (d.SetState kv.1 kv.2).SetData rest := by
        simp [DataObject.SetData]
      rw [this]
      exact ih _ h1

theorem initial_subsetInv (d : DataObject) (h : InitialState d) : subsetInv d := by
  cases h with
  | new uid =>
      intro k v hk
      rw [New_eq] at hk ⊢
      exact hk
  | fromData m =>
      intro k v hk
      rw [NewFromData_eq] at hk
      simp [lookupKV] at hk
  | fromJSON s _ h' =>
      obtain ⟨data, rfl, -⟩ := NewFromJSON_ok s d h'
      intro k v hk
      rw [NewFromData_eq] at hk
      simp [lookupKV] at hk
  | fromGob g _ h' =>
      obtain ⟨data, rfl, -⟩ := NewFromGob_ok g d h'
      intro k v hk
      rw [NewFromData_eq] at hk
      simp [lookupKV] at hk

theorem run_subsetInv (d : DataObject) (ops : List Op) (hd : subsetInv d)
    (hops : ∀ op ∈ ops, op.isHydrate = false) : subsetInv (run d ops) := by
  induction ops generalizing d with
  | nil => simpa [run] using hd
  | cons op rest ih =>
      have h1 : subsetInv (applyOp d op) := by
        cases op with
        | set k v => exact SetState_subsetInv d k v hd
        | setData m => exact SetData_subsetInv d m hd
        | hydrate m =>
            have := hops (Op.hydrate m) (by simp)
            simp [Op.isHydrate] at this
        | markAsNotDirty =>
            intro k v hk
            simp [applyOp, DataObject.MarkAsNotDirty, lookupKV] at hk
        | get k => simpa [applyOp, DataObject.Init_eq] using hd
        | data => simpa [applyOp, DataObject.Init_eq] using hd
        | dataChanged => simpa [applyOp, DataObject.Init_eq] using hd
      have hrun : run d (op :: rest) = run (applyOp d op) rest := by
        simp [run]
      rw [hrun]
      exact ih (applyOp d op) h1 (fun o ho => hops o (List.mem_cons_of_mem _ ho))

/-- C1 counterexample: the container reached by `New` followed by `Hydrate`
with the empty mapping still has `"id"` in its changed-values map but not in
its current-values map — the subset invariant does not survive `Hydrate`. -/
theorem C1_counterexample :
    lookupKV ((run (New "u0") [Op.hydrate []]).DataChanged) "id" = some "u0" ∧
    lookupKV ((run (New "u0") [Op.hydrate []]).Data) "id" = none := by
  constructor <;> decide

/-- C1 (amended): for every container reachable through any constructor
followed by any sequence of `Set`, `SetData`, `MarkAsNotDirty`, `Get`,
`Data`, `DataChanged` calls — i.e. any sequence free of `Hydrate`, whose
wholesale `data` replacement is what breaks the property — every key of the
changed-values map is also in the current-values map with the same value. -/
theorem C1_changed_subset_of_data (d : DataObject) (hd : InitialState d)
    (ops : List Op) (hops : ∀ op ∈ ops, op.isHydrate = false) (k v : String)
    (hk : lookupKV (run d ops).DataChanged k = some v) :
    lookupKV (run d ops).Data k = some v := by
  have h := run_subsetInv d ops (initial_subsetInv d hd) hops
  simp only [DataObject.Data, DataObject.DataChanged, DataObject.Init_eq] at hk ⊢
  exact h k v hk

/-- Witness for C1's amended statement on a concrete call sequence. -/
theorem C1_changed_subset_of_data_witness :
    (∀ op ∈ [Op.set "x" "1", Op.markAsNotDirty, Op.set "y" "2"],
      op.isHydrate = false) ∧
    lookupKV ((run (New "u1")
        [Op.set "x" "1", Op.markAsNotDirty, Op.set "y" "2"]).DataChanged) "y" =
      some "2" ∧
    lookupKV ((run (New "u1")
        [Op.set "x" "1", Op.markAsNotDirty, Op.set "y" "2"]).Data) "y" =
      some "2" :=
  ⟨by decide, by decide,
    C1_changed_subset_of_data (New "u1") (.new "u1")
      [Op.set "x" "1", Op.markAsNotDirty, Op.set "y" "2"] (by decide)
      "y" "2" (by decide)⟩

/-! ### The FromJSON validation rule (claim C5) -/

/-- The rejection condition exactly as the spec sentence words it, written
from the spec for the refinement comparison with the source's validator:
reject when the trimmed input equals one of the three literals, when the
input is not brace-delimited, or when the quoted `"id"` substring is
absent. -/
def specRejects (s : String) : Prop :=
  trimSpace s.data = [] ∨ trimSpace s.data = [lbrace, rbrace] ∨
  trimSpace s.data = ['n', 'u', 'l', 'l'] ∨
  (hasPrefixL s.data [lbrace] && hasSuffixL s.data [rbrace]) = false ∨
  containsSub s.data quotedIdPattern = false

theorem hasPrefixL_single (cs : List Char) (c : Char)
    (h : hasPrefixL cs [c] = true) : ∃ t, cs = c :: t := by
  cases cs with
  | nil => simp [hasPrefixL] at h
  | cons a t =>
      refine ⟨t, ?_⟩
      simp [hasPrefixL] at h
      rw [h]

/-- A string that starts with `\x7b` and ends with `\x7d` has no surrounding
whitespace, so trimming leaves it unchanged. -/
theorem trimSpace_of_braces (cs : List Char)
    (h1 : hasPrefixL cs [lbrace] = true) (h2 : hasSuffixL cs [rbrace] = true) :
    trimSpace cs = cs := by
  obtain ⟨t₁, he₁⟩ := hasPrefixL_single cs lbrace h1
  obtain ⟨t₂, he₂⟩ := hasPrefixL_single cs.reverse rbrace h2
  have hd : cs.dropWhile isSpaceGo = cs := by
    rw [he₁]
    simp [List.dropWhile_cons, show isSpaceGo lbrace = false from by decide]
  have hr : cs.reverse.dropWhile isSpaceGo = cs.reverse := by
    rw [he₂]
    simp [List.dropWhile_cons, show isSpaceGo rbrace = false from by decide]
  unfold trimSpace
  rw [hd, hr, List.reverse_reverse]

/-- C5: the validator rejects exactly the strings the spec's rule describes
(the trim is immaterial because any surviving surrounding whitespace already
violates the brace-delimiter test), and behaves as stated on each of the
spec's seven examples. -/
theorem C5_validation_rule :
    (∀ s : String, isValidDataObjectJSON s = false ↔ specRejects s) ∧
    isValidDataObjectJSON "" = false ∧
    isValidDataObjectJSON "\x7b\x7d" = false ∧
    isValidDataObjectJSON "null" = false ∧
    isValidDataObjectJSON "[1,2,3]" = false ∧
    isValidDataObjectJSON "\x7b\"name\":\"test\"\x7d" = false ∧
    isValidDataObjectJSON "\x7b\"id\":\"123\"\x7d" = true ∧
    isValidDataObjectJSON "\x7b\"id\":\"\"\x7d" = true := by
  refine ⟨fun s => ?_, by decide, by decide, by decide, by decide, by decide,
    by decide, by decide⟩
  by_cases h1 : s.data = [] ∨ s.data = [lbrace, rbrace] ∨
      s.data = ['n', 'u', 'l', 'l']
  · have hval : isValidDataObjectJSON s = false := by
      unfold isValidDataObjectJSON
      rcases h1 with h | h | h <;> simp [h]
    have hspec : specRejects s := by
      unfold specRejects
      rcases h1 with h | h | h
      · exact Or.inl (by rw [h]; decide)
      · exact Or.inr (Or.inl (by rw [h]; decide))
      · exact Or.inr (Or.inr (Or.inl (by rw [h]; decide)))
    exact iff_of_true hval hspec
  · push_neg at h1
    obtain ⟨hne1, hne2, hne3⟩ := h1
    by_cases h2 : (hasPrefixL s.data [lbrace] && hasSuffixL s.data [rbrace]) = true
    · have htrim : trimSpace s.data = s.data := by
        rw [Bool.and_eq_true] at h2
        exact trimSpace_of_braces s.data h2.1 h2.2
      have hval : isValidDataObjectJSON s = containsSub s.data quotedIdPattern := by
        unfold isValidDataObjectJSON
        simp [hne1, hne2, hne3, h2]
      rw [hval]
      unfold specRejects
      constructor
      · intro hc
        exact Or.inr (Or.inr (Or.inr (Or.inr hc)))
      · intro hspec
        rcases hspec with h | h | h | h | h
        · exact absurd (htrim ▸ h) hne1
        · exact absurd (htrim ▸ h) hne2
        · exact absurd (htrim ▸ h) hne3
        · exact absurd h2 (by simp [h])
        · exact h
    · have hval : isValidDataObjectJSON s = false := by
        unfold isValidDataObjectJSON
        simp [hne1, hne2, hne3]
        intro hp hs
        exact absurd (by simp [hp, hs]) h2
      have hspec : specRejects s := by
        unfold specRejects
        exact Or.inr (Or.inr (Or.inr (Or.inl (by simpa using h2))))
      exact iff_of_true hval hspec

/-- C6: marshalling a container holding exactly
id:"X", first_name:"Jon", last_name:"Doe" and reconstructing from the
produced JSON string succeeds and restores every attribute, the id, and a
clean (not dirty) container. -/
theorem C6_json_round_trip :
    (NewFromData
        [("id", "X"), ("first_name", "Jon"), ("last_name", "Doe")]).ToJSON =
      .ok "\x7b\"first_name\":\"Jon\",\"id\":\"X\",\"last_name\":\"Doe\"\x7d" ∧
    ∃ d',
      NewFromJSON
          "\x7b\"first_name\":\"Jon\",\"id\":\"X\",\"last_name\":\"Doe\"\x7d" =
        .ok d' ∧
      d'.Get "first_name" = .ok "Jon" ∧
      d'.Get "last_name" = .ok "Doe" ∧
      d'.ID = .ok "X" ∧
      d'.IsDirty = false :=
  ⟨by decide,
    ⟨NewFromData [("first_name", "Jon"), ("id", "X"), ("last_name", "Doe")],
      rfl, rfl, rfl, rfl, rfl⟩⟩

/-- C10: beyond the syntactic validation, `NewFromJSON` errors whenever the
decoded mapping's `"id"` converts to the empty string (also covering an
absent key, whose Go map read gives `""`), and `NewFromGob` errors whenever
the gob decode fails or the decoded mapping's `"id"` value is absent or
empty. -/
theorem C10_decoded_id_required :
    (∀ s o, jsonUnmarshal s = .ok (.mapV o) →
        mapGet (mapStringAnyToMapStringString o) propertyId = "" →
        ∃ e, NewFromJSON s = .error e) ∧
    (∃ e, NewFromGob none = .error e) ∧
    (∀ m, mapGet m propertyId = "" → ∃ e, NewFromGob (some m) = .error e) := by
  refine ⟨fun s o hu hid => ?_, ⟨"gob: decode error", rfl⟩, fun m hid => ?_⟩
  · unfold NewFromJSON
    by_cases hv : isValidDataObjectJSON s
    · rw [hu]
      simp only [hv, Bool.not_true, Bool.false_eq_true, if_false]
      exact ⟨"invalid json: missing id", by simp [hid]⟩
    · exact ⟨"invalid json: must be a valid dataobject json object", by simp [hv]⟩
  · exact ⟨"invalid gob data: missing id", by unfold NewFromGob; simp [hid]⟩

/-- Witness for C10 at the concrete input with an empty id value, which
passes the validation layer but is rejected after decoding. -/
theorem C10_decoded_id_required_witness :
    jsonUnmarshal "\x7b\"id\":\"\"\x7d" = .ok (.mapV [("id", .strV "")]) ∧
    mapGet (mapStringAnyToMapStringString [("id", .strV "")]) propertyId = "" ∧
    (∃ e, NewFromJSON "\x7b\"id\":\"\"\x7d" = .error e) ∧
    mapGet [("id", "")] propertyId = "" ∧
    (∃ e, NewFromGob (some [("id", "")]) = .error e) :=
  ⟨rfl, rfl,
    C10_decoded_id_required.1 "\x7b\"id\":\"\"\x7d" [("id", .strV "")] rfl rfl,
    rfl,
    C10_decoded_id_required.2.2 [("id", "")] rfl⟩

/-! ### Value conversion shapes (claim C9) -/

theorem digitChar_isDigit (n : Nat) (h : n < 10) : (digitChar n).isDigit = true := by
  interval_cases n <;> decide

theorem pad4_digits (m : Nat) : ∀ c ∈ pad4 m, c.isDigit = true := by
  intro c hc
  simp only [pad4, List.mem_cons, List.not_mem_nil, or_false] at hc
  rcases hc with h | h | h | h <;> subst h <;>
    exact digitChar_isDigit _ (Nat.mod_lt _ (by norm_num))

theorem natDigitsAux_digits (fuel : Nat) :
    ∀ n, ∀ c ∈ natDigitsAux fuel n, c.isDigit = true := by
  induction fuel with
  | zero => intro n c hc; simp [natDigitsAux] at hc
  | succ f ih =>
      intro n c hc
      cases n with
      | zero => simp [natDigitsAux] at hc
      | succ m =>
          simp only [natDigitsAux, List.mem_append, List.mem_singleton] at hc
          rcases hc with hc | hc
          · exact ih _ c hc
          · subst hc
            exact digitChar_isDigit _ (Nat.mod_lt _ (by norm_num))

theorem natDecimal_digits (n : Nat) :
    ∀ c ∈ (natDecimal n).data, c.isDigit = true := by
  unfold natDecimal
  by_cases h : n = 0
  · subst h
    intro c hc
    simp at hc
    subst hc
    decide
  · simp only [h, if_false]
    exact natDigitsAux_digits n n

theorem natDecimal_data_ne_nil (n : Nat) : (natDecimal n).data ≠ [] := by
  unfold natDecimal
  by_cases h : n = 0
  · subst h; decide
  · simp only [h, if_false]
    obtain ⟨m, rfl⟩ := Nat.exists_eq_succ_of_ne_zero h
    simp [natDigitsAux]

/-- The fixed-point shape holds for any string assembled as
optional-sign, decimal integer part, point, four padded digits. -/
theorem fixed4Shape_build (sign : String) (hsign : sign = "" ∨ sign = "-")
    (ip a : Nat) :
    fixed4Shape (sign ++ natDecimal ip ++ "." ++ String.mk (pad4 a)) = true := by
  have h1 : (sign ++ natDecimal ip ++ "." ++ String.mk (pad4 a)).data
      = sign.data ++ (natDecimal ip).data ++ ('.' :: pad4 a) := by
    simp [String.data_append]
  unfold fixed4Shape
  rw [h1]
  simp only [pad4, List.reverse_append, List.reverse_cons, List.reverse_nil,
    List.nil_append, List.cons_append, List.append_assoc]
  simp only [Bool.and_eq_true, decide_True, and_true, List.all_eq_true,
    List.any_eq_true, Bool.or_eq_true]
  refine ⟨⟨⟨⟨⟨?_, ?_⟩, ?_⟩, ?_⟩, ?_⟩, ?_⟩
  · exact digitChar_isDigit _ (Nat.mod_lt _ (by norm_num))
  · exact digitChar_isDigit _ (Nat.mod_lt _ (by norm_num))
  · exact digitChar_isDigit _ (Nat.mod_lt _ (by norm_num))
  · exact digitChar_isDigit _ (Nat.mod_lt _ (by norm_num))
  · intro c hc
    rw [List.mem_append] at hc
    rcases hc with hc | hc
    · rw [List.mem_reverse] at hc
      exact Or.inl (natDecimal_digits ip c hc)
    · rw [List.mem_reverse] at hc
      rcases hsign with h | h <;> subst h <;> simp at hc
      subst hc
      exact Or.inr (by decide)
  · obtain ⟨c, hc⟩ : ∃ c, c ∈ (natDecimal ip).data := by
      cases hd : (natDecimal ip).data with
      | nil => exact absurd hd (natDecimal_data_ne_nil ip)
      | cons c t => exact ⟨c, hd ▸ List.mem_cons_self c t⟩
    exact ⟨c, List.mem_append_left _ (List.mem_reverse.mpr hc),
      natDecimal_digits ip c hc⟩

section
attribute [local semireducible] Rat.mul Rat.add Rat.sub

/-- C9 counterexample: the source's type switch has no `float32` case, so a
`float32` value falls to the default `fmt.Sprint` branch: `float32(2.0)`
renders as `"2"`, not as a fixed-point string with four digits after the
decimal point. -/
theorem C9_counterexample :
    toString (.float32V 2) = "2" ∧
    fixed4Shape (toString (.float32V 2)) = false := by
  constructor <;> decide

/-- C9 (amended): `float64` — the only floating type the switch handles, and
the only one JSON decoding produces — converts to a fixed-point decimal with
exactly 4 digits after the point and no scientific notation (`float32`
instead falls through to the default `fmt.Sprint` branch); integers of any
width become their plain decimal string, booleans become `"true"`/`"false"`,
and nil becomes the empty string. -/
theorem C9_value_conversion :
    (∀ q : ℚ, fixed4Shape (toString (.float64V q)) = true) ∧
    toString (.float64V (mkRat 123 1000)) = "0.1230" ∧
    toString (.float64V 42) = "42.0000" ∧
    toString (.float64V (mkRat 6464 100)) = "64.6400" ∧
    (∀ n : ℤ, toString (.intV n) =
        (if n < 0 then "-" else "") ++ natDecimal n.natAbs ∧
      ∀ c ∈ (natDecimal n.natAbs).data, c.isDigit = true) ∧
    (∀ n : ℕ, toString (.uintV n) = natDecimal n ∧
      ∀ c ∈ (natDecimal n).data, c.isDigit = true) ∧
    toString (.boolV true) = "true" ∧
    toString (.boolV false) = "false" ∧
    toString .nilV = "" := by
  refine ⟨fun q => ?_, by decide, by decide, by decide,
    fun n => ⟨rfl, natDecimal_digits _⟩,
    fun n => ⟨rfl, natDecimal_digits _⟩, rfl, rfl, rfl⟩
  show fixed4Shape (formatFloat4 q) = true
  unfold formatFloat4
  by_cases hq : q < 0
  · simpa [hq] using
      fixed4Shape_build "-" (Or.inr rfl)
        ((roundHalfEven (q * 10000)).natAbs / 10000)
        (roundHalfEven (q * 10000)).natAbs
  · simpa [hq] using
      fixed4Shape_build "" (Or.inl rfl)
        ((roundHalfEven (q * 10000)).natAbs / 10000)
        (roundHalfEven (q * 10000)).natAbs

/-- Witness for C9's amended statement at concrete values. -/
theorem C9_value_conversion_witness :
    toString (.intV (-5)) = "-5" ∧ toString (.uintV 7) = "7" ∧
    fixed4Shape (toString (.float64V (mkRat 1 2))) = true :=
  ⟨by decide, by decide, C9_value_conversion.1 (mkRat 1 2)⟩

end

end Dataobject
